import Mathlib

/-!
Verification development for the `es_courses` repository (`school.py`,
`test_school.py`): an event-sourced domain model with a `School` aggregate
root, `Course` and `Student` entities, a projection policy and a derived
collection id.

The domain classes in `school.py` are embedded shallowly below.  The
entity/event machinery (`__trigger_event__`, `apply`, version bookkeeping)
lives in the external `eventsourcing` library, not in the repository; those
parts are modelled from the specification (see the doc comments marked
`Modelled from the spec:`).

Python mutable `Course` objects referenced from event payloads are modelled
by a heap `Heap : Nat → Course` mapping object references to current course
state; mutation rules that read `self.course.title` read the heap at
application time, exactly as the source does.
-/

namespace ES

/-- State of a `Course` entity (`school.py`, class `Course`):
`_title` (an event-sourced attribute) and `students` (ordered list of
student names), plus the entity-machinery fields carried by every
`VersionedEntity` (version counter and discarded flag). -/
structure Course where
  title : String
  students : List String
  version : Nat
  isDiscarded : Bool
deriving Repr, DecidableEq

/-- Payload of one `School` event variant (`school.py`, the nested event
classes of `School`).  `course` / `oldTitle` payload fields hold a
*reference* to a live `Course` object, modelled as a `Nat` heap address;
`newTitle` of `CourseTitleChanged` is a plain string, as in
`update_course_title(old_title, new_title)` where the second argument is the
string passed by the caller. -/
inductive SchoolEventKind where
  | created (nm : String)
  | attributeChanged (value : String) (fieldName : String)
  | courseAdded (course : Nat)
  | courseRemoved (course : Nat)
  | courseTitleChanged (oldTitle : Nat) (newTitle : String)
  | studentEnrolled (course : Nat) (student : Nat)
  | studentWithdrawn (course : Nat) (student : Nat)
  | discarded
deriving Repr, DecidableEq

/-- A `School` event: originator id, originator version (the version the
event produces) and the variant payload.  Modelled from the spec:
`originator_id`/`originator_version` are supplied by the library's event
base classes; the payload fields come from `school.py`. -/
structure SchoolEvent where
  originator_id : Nat
  originator_version : Nat
  kind : SchoolEventKind
deriving Repr, DecidableEq

/-- State of a `School` aggregate (`school.py`, class `School.__init__`):
`_history` starts empty, `_name` holds the name, `courses` starts empty;
`id`, `version` and the discarded flag are entity-machinery fields. -/
structure School where
  id : Nat
  name : Option String
  courses : List String
  hist : List SchoolEvent
  version : Nat
  isDiscarded : Bool
deriving Repr, DecidableEq

/-- The heap of live `Course` objects, indexed by object reference. -/
abbrev Heap : Type := Nat → Course

/-- Python `list.remove(x)`: removes the first occurrence of `x`, raising
`ValueError` (here `none`) when `x` is absent; on failure the list is
untouched. -/
def listRemove (xs : List String) (x : String) : Option (List String) :=
  match xs with
  | [] => none
  | y :: ys => if y = x then some ys else (listRemove ys x).map (fun zs => y :: zs)

/-- The `School` object constructed by `School.Created` (`School.__init__`
via the library's `Created.__mutate__`): empty history, the given name,
empty course list, version and discarded flag as set by the machinery. -/
def mkSchool (i : Nat) (nm : String) (v : Nat) : School :=
  { id := i, name := some nm, courses := [], hist := [], version := v,
    isDiscarded := false }

/-- The `mutate` methods of the `School` event classes (`school.py` lines
79-117), executed statement by statement against the current object and the
heap of live `Course` objects.  Returns the post-state of the school, the
post-state of the heap and whether the method completed without raising.
A failing `list.remove` leaves the object exactly as it was, because it is
the first statement of the methods that use it.  None of the methods writes
to any `Course` object, which is why the returned heap is always the input
heap.  `Created` is handled by `foldEvents` (it constructs the object) and
`Discarded` by the library machinery (sets the terminal flag): modelled from
the spec for those two variants. -/
def runMutate (e : SchoolEvent) (s : School) (env : Heap) :
    School × Heap × Bool :=
  match e.kind with
  | .created nm => (mkSchool e.originator_id nm e.originator_version, env, true)
  | .attributeChanged value _ =>
      ({ s with name := some value, hist := s.hist ++ [e] }, env, true)
  | .courseAdded c =>
      ({ s with courses := s.courses ++ [(env c).title],
                hist := s.hist ++ [e] }, env, true)
  | .courseRemoved c =>
      match listRemove s.courses (env c).title with
      | none => (s, env, false)
      | some cs => ({ s with courses := cs, hist := s.hist ++ [e] }, env, true)
  | .courseTitleChanged old nt =>
      match listRemove s.courses (env old).title with
      | none => (s, env, false)
      | some cs => ({ s with courses := cs ++ [nt] }, env, true)
  | .studentEnrolled _ _ => ({ s with hist := s.hist ++ [e] }, env, true)
  | .studentWithdrawn _ _ => ({ s with hist := s.hist ++ [e] }, env, true)
  | .discarded => ({ s with isDiscarded := true }, env, true)

/-- Modelled from the spec: `apply(event)` of the entity machinery —
requires `event.originator_id == self.id` and
`event.originator_version == self.version + 1`; on success runs the event's
mutation rule against the object, then sets
`self.version = event.originator_version`; an id or version mismatch is a
sequencing error (`none`), and a mutation rule that raises propagates the
error before the version is bumped.  Once discarded, no further events may
be applied. -/
def applyEvent (e : SchoolEvent) (s : School) (env : Heap) :
    Option (School × Heap) :=
  if e.originator_id = s.id ∧ e.originator_version = s.version + 1 ∧
      s.isDiscarded = false then
    match runMutate e s env with
    | (s2, env2, true) => some ({ s2 with version := e.originator_version }, env2)
    | (_, _, false) => none
  else none

/-- Modelled from the spec: folding the tail of an event stream onto an
already-constructed entity by repeated `apply`. -/
def applyList (es : List SchoolEvent) (s : School) (env : Heap) :
    Option (School × Heap) :=
  match es with
  | [] => some (s, env)
  | e :: rest =>
      match applyEvent e s env with
      | some (s2, env2) => applyList rest s2 env2
      | none => none

/-- Modelled from the spec: reconstruction of a `School` purely by folding
its event stream from the initial (empty) state.  The first event must be a
`Created` event with `originator_version = 0` (the creation event itself is
version 0); it constructs the object, and the remaining events are applied
in order by `apply`. -/
def foldEvents (es : List SchoolEvent) (env : Heap) :
    Option (School × Heap) :=
  match es with
  | [] => none
  | e :: rest =>
      match e.kind with
      | .created nm =>
          if e.originator_version = 0 then
            applyList rest (mkSchool e.originator_id nm 0) env
          else none
      | _ => none

/-- The error taxonomy surfaced by commands: `valueError` is Python's
`ValueError` raised by `list.remove` on an absent element (the spec's
NotFoundError); `terminalError` is the error raised when a command is
invoked on a discarded entity (the spec's TerminalStateError, modelled from
the spec). -/
inductive ESErr where
  | valueError
  | terminalError
deriving Repr, DecidableEq

/-- An in-memory `School` aggregate together with its pending-events buffer
(`__pending_events__`), drained by `__save__`. -/
structure AggState where
  school : School
  pending : List SchoolEvent
deriving Repr, DecidableEq

/-- Modelled from the spec: `__trigger_event__` of the entity machinery —
refuses any command on a discarded entity; otherwise constructs the event
with the entity's id and the correct next version, applies it (running the
mutation rule and bumping the version), and on success appends the event to
the pending-events buffer.  A mutation rule that raises propagates the
error: the version is not bumped and nothing is appended to the buffer; the
object is returned in whatever state the partially executed mutation left
it (for the rules in `school.py` the fallible statement comes first, so the
object is unchanged). -/
def triggerEvent (st : AggState) (k : SchoolEventKind) (env : Heap) :
    (AggState × Heap) × Option ESErr :=
  if st.school.isDiscarded then ((st, env), some .terminalError)
  else
    let e : SchoolEvent :=
      { originator_id := st.school.id,
        originator_version := st.school.version + 1, kind := k }
    match runMutate e st.school env with
    | (s2, env2, true) =>
        (({ school := { s2 with version := e.originator_version },
            pending := st.pending ++ [e] }, env2), none)
    | (s2, env2, false) => (({ st with school := s2 }, env2), some .valueError)

/-- `School.update_name(name)`: triggers `School.AttributeChanged` with
`value=name, name="_name"`. -/
def update_name (st : AggState) (nm : String) (env : Heap) :
    (AggState × Heap) × Option ESErr :=
  triggerEvent st (.attributeChanged nm "_name") env

/-- `School.update_course_title(old_title, new_title)`: triggers
`School.CourseTitleChanged` with the live `Course` reference `old_title`
and the string `new_title`. -/
def update_course_title (st : AggState) (old : Nat) (nt : String)
    (env : Heap) : (AggState × Heap) × Option ESErr :=
  triggerEvent st (.courseTitleChanged old nt) env

/-- `School.add_course(course)`: triggers `School.CourseAdded`. -/
def add_course (st : AggState) (c : Nat) (env : Heap) :
    (AggState × Heap) × Option ESErr :=
  triggerEvent st (.courseAdded c) env

/-- `School.remove_course(course)`: triggers `School.CourseRemoved`. -/
def remove_course (st : AggState) (c : Nat) (env : Heap) :
    (AggState × Heap) × Option ESErr :=
  triggerEvent st (.courseRemoved c) env

/-- `School.enroll_student(course, student)`: triggers
`School.StudentEnrolled`. -/
def enroll_student (st : AggState) (c : Nat) (stu : Nat) (env : Heap) :
    (AggState × Heap) × Option ESErr :=
  triggerEvent st (.studentEnrolled c stu) env

/-- `School.withdraw_student(course, student)`: triggers
`School.StudentWithdrawn`. -/
def withdraw_student (st : AggState) (c : Nat) (stu : Nat) (env : Heap) :
    (AggState × Heap) × Option ESErr :=
  triggerEvent st (.studentWithdrawn c stu) env

/-- `Course.StudentAdded.mutate`: `obj.students.append(self.value)`, and
`Course.StudentRemoved.mutate`: `obj.students.remove(self.value)` — run
against a `Course` object, returning the post-state and whether the method
completed without raising. -/
def runCourseMutate (added : Bool) (value : String) (c : Course) :
    Course × Bool :=
  if added then ({ c with students := c.students ++ [value] }, true)
  else
    match listRemove c.students value with
    | none => (c, false)
    | some ss => ({ c with students := ss }, true)

/-- `Course.add_student(student_name)`: triggers `Course.StudentAdded` with
`value=student_name`; the entity machinery (modelled from the spec, as for
`School`) refuses commands on a discarded entity and bumps the version on
success. -/
def add_student (c : Course) (nm : String) : Course × Option ESErr :=
  if c.isDiscarded then (c, some .terminalError)
  else
    match runCourseMutate true nm c with
    | (c2, true) => ({ c2 with version := c.version + 1 }, none)
    | (c2, false) => (c2, some .valueError)

/-- `Course.remove_student(student_name)`: triggers `Course.StudentRemoved`
with `value=student_name`; its mutation `obj.students.remove(self.value)`
raises `ValueError` when the name is absent. -/
def remove_student (c : Course) (nm : String) : Course × Option ESErr :=
  if c.isDiscarded then (c, some .terminalError)
  else
    match runCourseMutate false nm c with
    | (c2, true) => ({ c2 with version := c.version + 1 }, none)
    | (c2, false) => (c2, some .valueError)

/-- The state of the application's event store for one school: the ordered
stream of persisted `School` events.  Modelled from the spec: the store is
an append-only log and `save` appends the aggregate's pending events. -/
abbrev Store : Type := List SchoolEvent

/-- `SchoolApplication.withdraw_student_from_course(school_id, course,
student)` (`school.py` lines 244-249): loads the school by folding its
stored stream, calls `school.withdraw_student(course, student)`, saves (the
pending `StudentWithdrawn` event is appended to the store), and only then
calls `course.remove_student(student.full_name)` on the `Course` entity —
which raises `ValueError` if the student is not enrolled.  Returns the
post-state of the store and of the `Course` object, with the error if any
step raised. -/
def withdraw_student_from_course (store : Store) (cRef : Nat) (stu : Nat)
    (fullName : String) (env : Heap) :
    (Store × Course) × Option ESErr :=
  match foldEvents store env with
  | none => ((store, env cRef), some .valueError)
  | some (school, env1) =>
      match withdraw_student { school := school, pending := [] } cRef stu env1 with
      | ((st2, env2), none) =>
          let store2 := store ++ st2.pending
          match remove_student (env2 cRef) fullName with
          | (c2, err) => ((store2, c2), err)
      | ((_, env2), some err) => ((store, env2 cRef), some err)

/-- An argument to the projection policy's predicates: either a single
event or a Python list/tuple of such arguments (the code recurses through
nested sequences with `all(map(...))`). -/
inductive PolicyArg where
  | ev (e : SchoolEvent)
  | evList (args : List PolicyArg)

/-- `isinstance(event, School.Created)`. -/
def isCreatedEv (e : SchoolEvent) : Bool :=
  match e.kind with
  | .created _ => true
  | _ => false

/-- `isinstance(event, School.Discarded)`. -/
def isDiscardedEv (e : SchoolEvent) : Bool :=
  match e.kind with
  | .discarded => true
  | _ => false

mutual

/-- `ActiveCoursesProjectionPolicy.is_school_created(event)`: on a
list/tuple returns `all(map(self.is_school_created, event))`, otherwise
`isinstance(event, School.Created)`. -/
def is_school_created : PolicyArg → Bool
  | .ev e => isCreatedEv e
  | .evList args => is_school_created_all args

/-- The conjunction `all(map(self.is_school_created, event))` over the
elements of a list argument (true when the list is empty). -/
def is_school_created_all : List PolicyArg → Bool
  | [] => true
  | a :: rest => is_school_created a && is_school_created_all rest

end

mutual

/-- `ActiveCoursesProjectionPolicy.is_school_closed(event)`: on a
list/tuple returns `all(map(self.is_school_closed, event))`, otherwise
`isinstance(event, School.Discarded)`. -/
def is_school_closed : PolicyArg → Bool
  | .ev e => isDiscardedEv e
  | .evList args => is_school_closed_all args

/-- The conjunction `all(map(self.is_school_closed, event))` over the
elements of a list argument (true when the list is empty). -/
def is_school_closed_all : List PolicyArg → Bool
  | [] => true
  | a :: rest => is_school_closed a && is_school_closed_all rest

end

/-- Big-endian byte decomposition: the `count` bytes of `n`, most
significant first. -/
def bytesBE (count : Nat) (n : Nat) : List Nat :=
  (List.range count).map (fun i => n / 256 ^ (count - 1 - i) % 256)

/-- Left rotation of a 32-bit word. -/
def rotl32 (x k : Nat) : Nat := (x * 2 ^ k + x / 2 ^ (32 - k)) % 2 ^ 32

/-- SHA-1 message padding: append the byte `0x80`, zero bytes until the
length is 56 mod 64, then the original bit length as 8 big-endian bytes. -/
def sha1pad (msg : List Nat) : List Nat :=
  let l := msg.length
  msg ++ [128] ++ List.replicate ((119 - l % 64) % 64) 0
      ++ bytesBE 8 (l * 8 % 2 ^ 64)

/-- Split a byte list into 64-byte chunks. -/
def chunks64 (xs : List Nat) : List (List Nat) :=
  if h : xs = [] then []
  else xs.take 64 :: chunks64 (xs.drop 64)
termination_by xs.length
decreasing_by
  have hp : 0 < xs.length := List.length_pos.mpr h
  simp only [List.length_drop]
  omega

/-- Extend the 16 message-schedule words by `n` more words, each the
1-rotation of the xor of the words 3, 8, 14 and 16 places back. -/
def sha1extend (w : List Nat) : Nat → List Nat
  | 0 => w
  | k + 1 =>
      let i := w.length
      sha1extend
        (w ++ [rotl32 ((w.getD (i - 3) 0) ^^^ (w.getD (i - 8) 0) ^^^
                       (w.getD (i - 14) 0) ^^^ (w.getD (i - 16) 0)) 1]) k

/-- One SHA-1 round: the round function and constant depend on the round
index; all arithmetic is modulo `2 ^ 32`. -/
def sha1round (i w : Nat) (st : Nat × Nat × Nat × Nat × Nat) :
    Nat × Nat × Nat × Nat × Nat :=
  let (a, b, c, d, e) := st
  let f :=
    if i < 20 then (b &&& c) ||| ((4294967295 - b) &&& d)
    else if i < 40 then b ^^^ c ^^^ d
    else if i < 60 then (b &&& c) ||| (b &&& d) ||| (c &&& d)
    else b ^^^ c ^^^ d
  let k :=
    if i < 20 then 1518500249
    else if i < 40 then 1859775393
    else if i < 60 then 2400959708
    else 3395469782
  let temp := (rotl32 a 5 + f + e + k + w) % 2 ^ 32
  (temp, a, rotl32 b 30, c, d)

/-- Process one 64-byte chunk against the running hash state. -/
def sha1chunk (h : Nat × Nat × Nat × Nat × Nat) (chunk : List Nat) :
    Nat × Nat × Nat × Nat × Nat :=
  let w0 := (List.range 16).map (fun i =>
    chunk.getD (4 * i) 0 * 2 ^ 24 + chunk.getD (4 * i + 1) 0 * 2 ^ 16 +
    chunk.getD (4 * i + 2) 0 * 2 ^ 8 + chunk.getD (4 * i + 3) 0)
  let w := sha1extend w0 64
  let (a, b, c, d, e) :=
    (List.range 80).foldl (fun st i => sha1round i (w.getD i 0) st) h
  ((h.1 + a) % 2 ^ 32, (h.2.1 + b) % 2 ^ 32, (h.2.2.1 + c) % 2 ^ 32,
   (h.2.2.2.1 + d) % 2 ^ 32, (h.2.2.2.2 + e) % 2 ^ 32)

/-- SHA-1 of a byte string, as its 20-byte big-endian digest (the hash
`uuid5` is built on). -/
def sha1 (msg : List Nat) : List Nat :=
  let (h0, h1, h2, h3, h4) :=
    (chunks64 (sha1pad msg)).foldl sha1chunk
      (1732584193, 4023233417, 2562383102, 271733878, 3285377520)
  bytesBE 4 h0 ++ bytesBE 4 h1 ++ bytesBE 4 h2 ++ bytesBE 4 h3 ++ bytesBE 4 h4

/-- The ASCII code of the lowercase hex digit for `d`. -/
def hexChar (d : Nat) : Nat := if d < 10 then 48 + d else 87 + d

/-- The UTF-8 bytes of Python's `str(uuid)`: 32 lowercase hex digits of the
128-bit value with hyphens after digits 8, 12, 16 and 20. -/
def uuidStrBytes (n : Nat) : List Nat :=
  let ds := (List.range 32).map (fun i => hexChar (n / 16 ^ (31 - i) % 16))
  ds.take 8 ++ [45] ++ (ds.drop 8).take 4 ++ [45] ++ (ds.drop 12).take 4
    ++ [45] ++ (ds.drop 16).take 4 ++ [45] ++ ds.drop 20

/-- Force the version field to 5 and the variant field to RFC 4122 in the
16 digest bytes, as `uuid.UUID(bytes=..., version=5)` does: byte 6 keeps
its low nibble under version nibble `0x5`, byte 8 keeps its low 6 bits
under variant bits `10`. -/
def setUuid5Bits (bs : List Nat) : List Nat :=
  bs.mapIdx (fun i b =>
    if i = 6 then b % 16 + 80 else if i = 8 then b % 64 + 128 else b)

/-- `uuid.uuid5(namespace, name)`: the SHA-1 digest of the namespace's 16
big-endian bytes followed by the UTF-8 bytes of `name`, truncated to 16
bytes, with version/variant bits forced, read as a 128-bit integer. -/
def uuid5 (ns : Nat) (nameBytes : List Nat) : Nat :=
  (setUuid5Bits ((sha1 (bytesBE 16 ns ++ nameBytes)).take 16)).foldl
    (fun acc b => acc * 256 + b) 0

/-- The event variants whose `mutate` methods append the event to the
instance's `_history` list: `AttributeChanged`, `CourseAdded`,
`CourseRemoved`, `StudentEnrolled` and `StudentWithdrawn` (`Created`,
`CourseTitleChanged` and `Discarded` do not). -/
def isRecordedEv (e : SchoolEvent) : Bool :=
  match e.kind with
  | .attributeChanged _ _ => true
  | .courseAdded _ => true
  | .courseRemoved _ => true
  | .studentEnrolled _ _ => true
  | .studentWithdrawn _ _ => true
  | _ => false

/-- The heap references whose `Course` state a `School` mutation rule reads
(`self.course.title` in `CourseAdded`/`CourseRemoved`, and
`self.old_title.title` in `CourseTitleChanged`). -/
def readRefs (e : SchoolEvent) : List Nat :=
  match e.kind with
  | .courseAdded c => [c]
  | .courseRemoved c => [c]
  | .courseTitleChanged old _ => [old]
  | _ => []

/-- `SCHOOL_COURSE_COLLECTION_NS = UUID("bdae89e5-9af6-4e07-80fd-19d8adc6c2a6")`
as a 128-bit integer. -/
def SCHOOL_COURSE_COLLECTION_NS : Nat :=
  0xbdae89e59af64e0780fd19d8adc6c2a6

/-- `make_school_course_collection_id(school_id, collection_ns=SCHOOL_COURSE_COLLECTION_NS)`:
`uuid5(collection_ns, str(school_id))` at the default namespace. -/
def make_school_course_collection_id (school_id : Nat) : Nat :=
  uuid5 SCHOOL_COURSE_COLLECTION_NS (uuidStrBytes school_id)

/-! ### Helper lemmas about `listRemove`, mutation and folding -/

/-- `list.remove` raises (returns `none`) exactly on an absent element. -/
theorem listRemove_of_not_mem (xs : List String) (x : String) (h : x ∉ xs) :
    listRemove xs x = none := by
  induction xs with
  | nil => rfl
  | cons y ys ih =>
      simp only [List.mem_cons, not_or] at h
      have hne : ¬ y = x := fun hyx => h.1 hyx.symm
      simp only [listRemove, if_neg hne, ih h.2, Option.map_none']

/-- On a present element, `list.remove` deletes exactly the first
occurrence: `listRemove` computes `List.erase`. -/
theorem listRemove_of_mem (xs : List String) (x : String) (h : x ∈ xs) :
    listRemove xs x = some (xs.erase x) := by
  induction xs with
  | nil => cases h
  | cons y ys ih =>
      by_cases hyx : y = x
      · subst hyx
        simp [listRemove, List.erase_cons_head]
      · have hx : x ∈ ys := by
          rcases List.mem_cons.mp h with h1 | h1
          · exact absurd h1.symm hyx
          · exact h1
        simp [listRemove, hyx, ih hx, List.erase_cons_tail,
          beq_iff_eq]

/-- No `School` mutation rule writes to any live `Course` object: the heap
returned by `runMutate` is the input heap. -/
theorem runMutate_heap (e : SchoolEvent) (s : School) (env : Heap) :
    (runMutate e s env).2.1 = env := by
  rcases e with ⟨i, v, k⟩
  cases k <;> simp only [runMutate] <;> (try split) <;> rfl

/-- Anatomy of a successful `apply`: the event carried the entity's id and
its next version, the produced version is the event's `originator_version`,
and the heap is untouched. -/
theorem applyEvent_some (e : SchoolEvent) (s : School) (env : Heap)
    (s2 : School) (env2 : Heap) (h : applyEvent e s env = some (s2, env2)) :
    e.originator_id = s.id ∧ e.originator_version = s.version + 1 ∧
    s.isDiscarded = false ∧ s2.version = e.originator_version ∧ env2 = env := by
  unfold applyEvent at h
  split at h
  case isTrue hc =>
    rcases hr : runMutate e s env with ⟨s', env', b⟩
    rw [hr] at h
    cases b
    · exact absurd h (by simp)
    · simp only [Option.some.injEq, Prod.mk.injEq] at h
      have henv : env' = env := by
        have := runMutate_heap e s env
        rw [hr] at this
        exact this
      refine ⟨hc.1, hc.2.1, hc.2.2, ?_, by rw [← h.2, henv]⟩
      rw [← h.1]
  case isFalse => exact absurd h (by simp)

/-- Folding a tail of events by repeated `apply` advances the version by
exactly the number of events and leaves the heap untouched. -/
theorem applyList_version (es : List SchoolEvent) :
    ∀ s env s2 env2, applyList es s env = some (s2, env2) →
      s2.version = s.version + es.length ∧ env2 = env := by
  induction es with
  | nil =>
      intro s env s2 env2 h
      simp only [applyList, Option.some.injEq, Prod.mk.injEq] at h
      simp [← h.1, ← h.2]
  | cons e rest ih =>
      intro s env s2 env2 h
      simp only [applyList] at h
      rcases ha : applyEvent e s env with _ | ⟨s1, env1⟩
      · rw [ha] at h; exact absurd h (by simp)
      · rw [ha] at h
        obtain ⟨_, hv, _, hs1, henv1⟩ := applyEvent_some e s env s1 env1 ha
        obtain ⟨ihv, ihe⟩ := ih s1 env1 s2 env2 h
        constructor
        · rw [ihv, hs1, hv, List.length_cons]
          omega
        · rw [ihe, henv1]

/-- After folding a nonempty tail of events by repeated `apply`, the
resulting version is the last event's `originator_version`. -/
theorem applyList_getLast (es : List SchoolEvent) :
    ∀ s env s2 env2, applyList es s env = some (s2, env2) → es ≠ [] →
      es.getLast?.map SchoolEvent.originator_version = some s2.version := by
  induction es with
  | nil => intro s env s2 env2 _ hne; exact absurd rfl hne
  | cons e rest ih =>
      intro s env s2 env2 h _
      simp only [applyList] at h
      rcases ha : applyEvent e s env with _ | ⟨s1, env1⟩
      · rw [ha] at h; exact absurd h (by simp)
      · rw [ha] at h
        obtain ⟨_, hv, _, hs1, _⟩ := applyEvent_some e s env s1 env1 ha
        rcases rest with _ | ⟨e2, rest2⟩
        · simp only [applyList, Option.some.injEq, Prod.mk.injEq] at h
          simp [List.getLast?_singleton, ← h.1, hs1]
        · rw [List.getLast?_cons_cons]
          exact ih s1 env1 s2 env2 h (by simp)

/-- Anatomy of a successful fold from the initial state: the stream starts
with a `Created` event of `originator_version` 0 that constructs the
school, and the rest is applied in order. -/
theorem foldEvents_some (es : List SchoolEvent) (env : Heap) (s : School)
    (env2 : Heap) (h : foldEvents es env = some (s, env2)) :
    ∃ e0 rest nm, es = e0 :: rest ∧ e0.kind = .created nm ∧
      e0.originator_version = 0 ∧
      applyList rest (mkSchool e0.originator_id nm 0) env = some (s, env2) := by
  rcases es with _ | ⟨e0, rest⟩
  · exact absurd h (by simp [foldEvents])
  · rcases hk : e0.kind with nm | _ | _ | _ | _ | _ | _ | _ <;>
      simp only [foldEvents, hk] at h
    case created =>
      split at h
      case isTrue hv => exact ⟨e0, rest, nm, rfl, hk, hv, h⟩
      case isFalse => exact absurd h (by simp)
    all_goals exact Option.noConfusion h

/-- A successful non-`Created` mutation appends the event to `_history`
exactly when its variant is one of the recording ones. -/
theorem runMutate_hist (e : SchoolEvent) (s : School) (env : Heap)
    (s' : School) (env' : Heap) (hnc : isCreatedEv e = false)
    (hr : runMutate e s env = (s', env', true)) :
    s'.hist = s.hist ++ if isRecordedEv e then [e] else [] := by
  rcases e with ⟨i, v, k⟩
  cases k
  all_goals simp only [runMutate] at hr
  case created nm => exact absurd hnc (by simp [isCreatedEv])
  case courseRemoved c =>
      rcases hlr : listRemove s.courses (env c).title with _ | cs <;> rw [hlr] at hr
      · exact absurd hr (by simp)
      · simp only [Prod.mk.injEq] at hr
        rw [← hr.1]
        simp [isRecordedEv]
  case courseTitleChanged old nt =>
      rcases hlr : listRemove s.courses (env old).title with _ | cs <;> rw [hlr] at hr
      · exact absurd hr (by simp)
      · simp only [Prod.mk.injEq] at hr
        rw [← hr.1]
        simp [isRecordedEv]
  all_goals
    simp only [Prod.mk.injEq] at hr
    rw [← hr.1]
    simp [isRecordedEv]

/-- Folding a tail of non-`Created` events by repeated `apply` extends
`_history` by exactly the events of the recording variants, in order. -/
theorem applyList_hist (es : List SchoolEvent) :
    ∀ s env s2 env2, (∀ e ∈ es, isCreatedEv e = false) →
      applyList es s env = some (s2, env2) →
      s2.hist = s.hist ++ es.filter isRecordedEv := by
  induction es with
  | nil =>
      intro s env s2 env2 _ h
      simp only [applyList, Option.some.injEq, Prod.mk.injEq] at h
      simp [← h.1]
  | cons e rest ih =>
      intro s env s2 env2 hnc h
      simp only [applyList] at h
      rcases ha : applyEvent e s env with _ | ⟨s1, env1⟩ <;> rw [ha] at h
      · exact absurd h (by simp)
      · have hist1 : s1.hist = s.hist ++ if isRecordedEv e then [e] else [] := by
          unfold applyEvent at ha
          split at ha
          case isFalse => exact absurd ha (by simp)
          case isTrue =>
            rcases hr : runMutate e s env with ⟨s', env', b⟩
            rw [hr] at ha
            cases b
            · exact absurd ha (by simp)
            · simp only [Option.some.injEq, Prod.mk.injEq] at ha
              have := runMutate_hist e s env s' env' (hnc e (by simp)) hr
              rw [← ha.1]
              exact this
        have := ih s1 env1 s2 env2 (fun e' he' => hnc e' (by simp [he'])) h
        rw [this, hist1, List.filter_cons]
        by_cases hrec : isRecordedEv e = true
        · simp [hrec]
        · simp [hrec] at *

/-! ### C1 -/

/-- A heap assigning every reference a blank course object. -/
def heap0 : Heap :=
  fun _ => { title := "", students := [], version := 0, isDiscarded := false }

/-- The spec scenario prefix: the `Created` event of opening school
"International University" followed by the `AttributeChanged` event of
renaming it to "National U" (two applied events). -/
def c1Stream : List SchoolEvent :=
  [{ originator_id := 1, originator_version := 0,
     kind := .created "International University" },
   { originator_id := 1, originator_version := 1,
     kind := .attributeChanged "National U" "_name" }]

/-- The school obtained by folding `c1Stream`. -/
def c1School : School :=
  { id := 1, name := some "National U", courses := [],
    hist := [{ originator_id := 1, originator_version := 1,
               kind := .attributeChanged "National U" "_name" }],
    version := 1, isDiscarded := false }

/-- C1, counterexample: after applying the `Created` event and one
`AttributeChanged` event (two events), the fold yields version 1, not 2:
`version` does not equal the count of applied events. -/
theorem C1_counterexample :
    (foldEvents c1Stream heap0).map (fun p => p.1.version) = some 1 ∧
    c1Stream.length = 2 ∧ (1 : Nat) ≠ 2 :=
  ⟨rfl, rfl, by decide⟩

/-- C1, amended: for every successful fold from the initial state, the
resulting `version` equals the count of applied events minus one (the
`Created` event itself produces version 0), and equals the
`originator_version` of the last applied event. -/
theorem C1_version_after_fold (es : List SchoolEvent) (env : Heap)
    (s : School) (env2 : Heap) (h : foldEvents es env = some (s, env2)) :
    s.version + 1 = es.length ∧
    es.getLast?.map SchoolEvent.originator_version = some s.version := by
  obtain ⟨e0, rest, nm, heq, hk, hv0, happ⟩ := foldEvents_some es env s env2 h
  subst heq
  obtain ⟨hver, _⟩ := applyList_version rest _ env s env2 happ
  have hmkv : (mkSchool e0.originator_id nm 0).version = 0 := rfl
  rw [hmkv] at hver
  constructor
  · rw [hver, List.length_cons]
    omega
  · rcases rest with _ | ⟨e2, rest2⟩
    · simp only [applyList, Option.some.injEq, Prod.mk.injEq] at happ
      simp only [List.getLast?_singleton, Option.map_some']
      rw [hv0, ← happ.1]
      rfl
    · rw [List.getLast?_cons_cons]
      exact applyList_getLast _ _ _ _ _ happ (by simp)

/-- Witness for C1's amended theorem at the concrete two-event stream. -/
theorem C1_version_after_fold_witness :
    c1School.version + 1 = c1Stream.length ∧
    c1Stream.getLast?.map SchoolEvent.originator_version =
      some c1School.version :=
  C1_version_after_fold c1Stream heap0 c1School heap0 rfl

/-! ### C2 -/

/-- A heap assigning every reference a course titled "Physics". -/
def c2Heap : Heap :=
  fun _ => { title := "Physics", students := [], version := 0,
             isDiscarded := false }

/-- A stream applying three events: `Created`, `CourseAdded` for the course
at reference 0, and `CourseTitleChanged` renaming it to "Physics 2". -/
def c2Stream : List SchoolEvent :=
  [{ originator_id := 1, originator_version := 0, kind := .created "S" },
   { originator_id := 1, originator_version := 1, kind := .courseAdded 0 },
   { originator_id := 1, originator_version := 2,
     kind := .courseTitleChanged 0 "Physics 2" }]

/-- The school obtained by folding `c2Stream` under `c2Heap`: its history
holds only the `CourseAdded` event. -/
def c2School : School :=
  { id := 1, name := some "S", courses := ["Physics 2"],
    hist := [{ originator_id := 1, originator_version := 1,
               kind := .courseAdded 0 }],
    version := 2, isDiscarded := false }

/-- C2, counterexample: after applying three events (`Created`,
`CourseAdded`, `CourseTitleChanged`), the history holds one entry, not
three — `Created` and `CourseTitleChanged` are never appended to
`_history`. -/
theorem C2_counterexample :
    (foldEvents c2Stream c2Heap).map (fun p => p.1.hist.length) = some 1 ∧
    c2Stream.length = 3 ∧ (1 : Nat) ≠ 3 :=
  ⟨rfl, rfl, by decide⟩

/-- C2, amended: for every successful fold whose tail contains no further
`Created` event, the history is exactly the subsequence of applied events
of the recording variants (`AttributeChanged`, `CourseAdded`,
`CourseRemoved`, `StudentEnrolled`, `StudentWithdrawn`), in application
order; `Created`, `CourseTitleChanged` and `Discarded` events are not
recorded. -/
theorem C2_history_is_recorded_filter (es : List SchoolEvent) (env : Heap)
    (s : School) (env2 : Heap)
    (hnc : ∀ e ∈ es.drop 1, isCreatedEv e = false)
    (h : foldEvents es env = some (s, env2)) :
    s.hist = (es.drop 1).filter isRecordedEv := by
  obtain ⟨e0, rest, nm, heq, hk, hv0, happ⟩ := foldEvents_some es env s env2 h
  subst heq
  simp only [List.drop_succ_cons, List.drop_zero] at hnc ⊢
  have := applyList_hist rest (mkSchool e0.originator_id nm 0) env s env2 hnc happ
  rw [this]
  rfl

/-- Witness for C2's amended theorem at the concrete three-event stream. -/
theorem C2_history_is_recorded_filter_witness :
    c2School.hist = (c2Stream.drop 1).filter isRecordedEv :=
  C2_history_is_recorded_filter c2Stream c2Heap c2School c2Heap
    (by decide) rfl

/-! ### C3 -/

/-- A live school from the spec scenario: renamed to "National U" with
courses "Geography 1" and "Physics". -/
def c4School : School :=
  { id := 1, name := some "National U",
    courses := ["Geography 1", "Physics"], hist := [], version := 3,
    isDiscarded := false }

/-- The aggregate `c4School` with an empty pending-events buffer. -/
def c4St : AggState := { school := c4School, pending := [] }

/-- C3, confirmed: removing a course whose title does not occur in
`courses` fails with the not-found error (`ValueError` from
`list.remove`), and the aggregate — its `courses`, `version`, `_history`
and pending-events buffer — and the heap are returned exactly as they were:
the error is reported before any event is emitted. -/
theorem C3_remove_course_not_found (st : AggState) (c : Nat) (env : Heap)
    (hd : st.school.isDiscarded = false)
    (habs : (env c).title ∉ st.school.courses) :
    remove_course st c env = ((st, env), some ESErr.valueError) := by
  unfold remove_course triggerEvent
  rw [if_neg (by simp [hd])]
  simp only [runMutate, listRemove_of_not_mem _ _ habs]

/-- Witness for C3 at a concrete school and an absent course title. -/
theorem C3_remove_course_not_found_witness :
    remove_course c4St 0 heap0 = ((c4St, heap0), some ESErr.valueError) :=
  C3_remove_course_not_found c4St 0 heap0 rfl (by decide)

/-! ### C4 -/

/-- A heap assigning every reference the live course currently titled
"Physics". -/
def physicsHeap : Heap :=
  fun _ => { title := "Physics", students := [], version := 1,
             isDiscarded := false }

/-- C4, confirmed: on a live school whose `courses` contains the old
course's (current) title, `update_course_title` succeeds, removing the
first occurrence of that title and appending the new title at the end (and
bumping the version); when the title is absent the call fails with the
not-found error and the aggregate and heap are unchanged. -/
theorem C4_update_course_title (st : AggState) (old : Nat) (nt : String)
    (env : Heap) (hd : st.school.isDiscarded = false) :
    ((env old).title ∈ st.school.courses →
      ∃ st2, update_course_title st old nt env = ((st2, env), none) ∧
        st2.school.courses =
          st.school.courses.erase (env old).title ++ [nt] ∧
        st2.school.version = st.school.version + 1) ∧
    ((env old).title ∉ st.school.courses →
      update_course_title st old nt env = ((st, env), some ESErr.valueError)) := by
  constructor
  · intro hmem
    unfold update_course_title triggerEvent
    rw [if_neg (by simp [hd])]
    simp only [runMutate, listRemove_of_mem _ _ hmem]
    exact ⟨_, rfl, rfl, rfl⟩
  · intro habs
    unfold update_course_title triggerEvent
    rw [if_neg (by simp [hd])]
    simp only [runMutate, listRemove_of_not_mem _ _ habs]

/-- Witness for C4: renaming "Physics" to "Physics 2" on courses
("Geography 1", "Physics") yields ("Geography 1", "Physics 2"). -/
theorem C4_update_course_title_witness :
    (∃ st2, update_course_title c4St 0 "Physics 2" physicsHeap =
        ((st2, physicsHeap), none) ∧
      st2.school.courses =
        c4St.school.courses.erase (physicsHeap 0).title ++ ["Physics 2"] ∧
      st2.school.version = c4St.school.version + 1) ∧
    c4St.school.courses.erase (physicsHeap 0).title ++ ["Physics 2"] =
      ["Geography 1", "Physics 2"] :=
  ⟨(C4_update_course_title c4St 0 "Physics 2" physicsHeap rfl).1 (by decide),
   by decide⟩

/-! ### C5 -/

/-- C5, confirmed: applying a `StudentEnrolled` or `StudentWithdrawn`
event appends exactly that one event to the school's history and changes
nothing else: `name` and `courses` are untouched and the heap of live
`Course` objects — hence every course's title and roster — is exactly the
input heap. -/
theorem C5_student_events_frame (e : SchoolEvent) (s : School) (env : Heap)
    (s2 : School) (env2 : Heap)
    (hk : (∃ c stu, e.kind = .studentEnrolled c stu) ∨
          (∃ c stu, e.kind = .studentWithdrawn c stu))
    (h : applyEvent e s env = some (s2, env2)) :
    s2.hist = s.hist ++ [e] ∧ s2.name = s.name ∧ s2.courses = s.courses ∧
    env2 = env := by
  unfold applyEvent at h
  split at h
  case isFalse => exact absurd h (by simp)
  case isTrue =>
    rcases e with ⟨i, v, k⟩
    rcases hk with ⟨c, stu, hke⟩ | ⟨c, stu, hke⟩ <;>
    · simp only at hke
      subst hke
      simp only [runMutate, Option.some.injEq, Prod.mk.injEq] at h
      rw [← h.1, ← h.2]
      exact ⟨rfl, rfl, rfl, rfl⟩

/-- The `StudentEnrolled` event applied in C5's witness. -/
def c5Event : SchoolEvent :=
  { originator_id := 1, originator_version := 4,
    kind := .studentEnrolled 0 7 }

/-- The school produced by applying `c5Event` to `c4School`. -/
def c5School : School :=
  { c4School with hist := c4School.hist ++ [c5Event], version := 4 }

/-- Witness for C5 at a concrete `StudentEnrolled` event. -/
theorem C5_student_events_frame_witness :
    c5School.hist = c4School.hist ++ [c5Event] ∧
    c5School.name = c4School.name ∧ c5School.courses = c4School.courses ∧
    heap0 = heap0 :=
  C5_student_events_frame c5Event c4School heap0 c5School heap0
    (Or.inl ⟨0, 7, rfl⟩) rfl

/-! ### C6 -/

/-- A mutation rule's result depends on the heap only through the `Course`
objects its payload references. -/
theorem runMutate_congr (e : SchoolEvent) (s : School) (env1 env2 : Heap)
    (hagree : ∀ r ∈ readRefs e, env1 r = env2 r) :
    ((runMutate e s env1).1, (runMutate e s env1).2.2) =
    ((runMutate e s env2).1, (runMutate e s env2).2.2) := by
  rcases e with ⟨i, v, k⟩
  cases k <;> simp only [runMutate]
  case courseAdded c => rw [hagree c (by simp [readRefs])]
  case courseRemoved c =>
    rw [hagree c (by simp [readRefs])]
    cases listRemove s.courses (env2 c).title <;> rfl
  case courseTitleChanged old nt =>
    rw [hagree old (by simp [readRefs])]
    cases listRemove s.courses (env2 old).title <;> rfl

/-- `apply` under two heaps agreeing on the event's referenced courses
produces the same school state. -/
theorem applyEvent_congr (e : SchoolEvent) (s : School) (env1 env2 : Heap)
    (hagree : ∀ r ∈ readRefs e, env1 r = env2 r) :
    (applyEvent e s env1).map Prod.fst = (applyEvent e s env2).map Prod.fst := by
  by_cases hc : e.originator_id = s.id ∧ e.originator_version = s.version + 1 ∧
      s.isDiscarded = false
  · have h := runMutate_congr e s env1 env2 hagree
    rcases h1 : runMutate e s env1 with ⟨sa, ea, ba⟩
    rcases h2 : runMutate e s env2 with ⟨sb, eb, bb⟩
    rw [h1, h2] at h
    simp only [Prod.mk.injEq] at h
    obtain ⟨hs, hb⟩ := h
    subst hs
    subst hb
    simp only [applyEvent, if_pos hc, h1, h2]
    cases ba <;> rfl
  · simp [applyEvent, if_neg hc]

/-- Folding a tail of events under two heaps agreeing on every course
referenced by the stream produces the same school state. -/
theorem applyList_congr (es : List SchoolEvent) :
    ∀ s env1 env2, (∀ e ∈ es, ∀ r ∈ readRefs e, env1 r = env2 r) →
      (applyList es s env1).map Prod.fst =
      (applyList es s env2).map Prod.fst := by
  induction es with
  | nil => intro s env1 env2 _; rfl
  | cons e rest ih =>
      intro s env1 env2 hagree
      have hone := applyEvent_congr e s env1 env2
        (fun r hr => hagree e (by simp) r hr)
      simp only [applyList]
      rcases h1 : applyEvent e s env1 with _ | ⟨s1, e1⟩
      · rcases h2 : applyEvent e s env2 with _ | ⟨s2, e2⟩
        · rfl
        · rw [h1, h2] at hone
          exact absurd hone (by simp)
      · rcases h2 : applyEvent e s env2 with _ | ⟨s2, e2⟩
        · rw [h1, h2] at hone
          exact absurd hone (by simp)
        · rw [h1, h2] at hone
          simp only [Option.map_some', Option.some.injEq] at hone
          obtain ⟨_, _, _, _, he1⟩ := applyEvent_some e s env1 s1 e1 h1
          obtain ⟨_, _, _, _, he2⟩ := applyEvent_some e s env2 s2 e2 h2
          rw [he1, he2, hone]
          exact ih s2 env1 env2
            (fun e' he' r hr => hagree e' (by simp [he']) r hr)

/-- The same live course object, before and after its title changed from
"Physics" to "Physics 2" via the `Course` entity's own event. -/
def c6HeapA : Heap :=
  fun _ => { title := "Physics", students := [], version := 1,
             isDiscarded := false }

/-- The heap after the referenced course was retitled. -/
def c6HeapB : Heap :=
  fun _ => { title := "Physics 2", students := [], version := 2,
             isDiscarded := false }

/-- A stream whose `CourseAdded` payload references the live course 0. -/
def c6Stream : List SchoolEvent :=
  [{ originator_id := 1, originator_version := 0, kind := .created "S" },
   { originator_id := 1, originator_version := 1, kind := .courseAdded 0 }]

/-- C6, counterexample: replaying the very same event stream from the
initial state before and after the referenced live course is retitled
yields different states — the fold is not a function of the stream alone,
because `CourseAdded.mutate` reads `self.course.title` at application
time. -/
theorem C6_counterexample :
    (foldEvents c6Stream c6HeapA).map (fun p => p.1.courses) =
      some ["Physics"] ∧
    (foldEvents c6Stream c6HeapB).map (fun p => p.1.courses) =
      some ["Physics 2"] ∧
    (["Physics"] : List String) ≠ ["Physics 2"] :=
  ⟨rfl, rfl, by decide⟩

/-- C6, amended: the fold is deterministic given the stream and the
current state of the live `Course` objects its payloads reference — two
replays of the same stream from the initial state yield identical school
states whenever every referenced course is in the same state at both
replays. -/
theorem C6_fold_deterministic (es : List SchoolEvent) (env1 env2 : Heap)
    (hagree : ∀ e ∈ es, ∀ r ∈ readRefs e, env1 r = env2 r) :
    (foldEvents es env1).map Prod.fst = (foldEvents es env2).map Prod.fst := by
  rcases es with _ | ⟨e0, rest⟩
  · rfl
  · rcases hk : e0.kind with nm | _ | _ | _ | _ | _ | _ | _ <;>
      simp only [foldEvents, hk]
    case created =>
      by_cases hv : e0.originator_version = 0
      · simp only [if_pos hv]
        exact applyList_congr rest _ env1 env2
          (fun e he r hr => hagree e (by simp [he]) r hr)
      · simp only [if_neg hv]

/-- Witness for C6's amended theorem: two heaps that agree on course 0
(the only referenced course) but differ elsewhere give the same fold. -/
theorem C6_fold_deterministic_witness :
    (foldEvents c6Stream c6HeapA).map Prod.fst =
    (foldEvents c6Stream (fun r => if r = 0 then c6HeapA 0 else c6HeapB r)).map
      Prod.fst :=
  C6_fold_deterministic c6Stream c6HeapA
    (fun r => if r = 0 then c6HeapA 0 else c6HeapB r) (by decide)

/-! ### C7 -/

/-- C7, confirmed: on a live course, `remove_student` with a name absent
from `students` fails with the not-found error (`ValueError` from
`list.remove`) leaving the course unchanged — not a silent no-op — and
with a present name it succeeds, deleting exactly the first occurrence. -/
theorem C7_remove_student (c : Course) (nm : String)
    (hd : c.isDiscarded = false) :
    (nm ∉ c.students → remove_student c nm = (c, some ESErr.valueError)) ∧
    (nm ∈ c.students →
      ∃ c2, remove_student c nm = (c2, none) ∧
        c2.students = c.students.erase nm) := by
  constructor
  · intro habs
    unfold remove_student runCourseMutate
    rw [if_neg (by simp [hd])]
    simp only [Bool.false_eq_true, if_false, listRemove_of_not_mem _ _ habs]
  · intro hmem
    unfold remove_student runCourseMutate
    rw [if_neg (by simp [hd])]
    simp only [Bool.false_eq_true, if_false, listRemove_of_mem _ _ hmem]
    exact ⟨_, rfl, rfl⟩

/-- A course with one enrolled student. -/
def c7Course : Course :=
  { title := "Geography 1", students := ["George Jetson"], version := 3,
    isDiscarded := false }

/-- Witness for C7: withdrawing a never-enrolled student fails; removing
the enrolled one deletes the first occurrence. -/
theorem C7_remove_student_witness :
    (remove_student c7Course "Jane Jetson" =
      (c7Course, some ESErr.valueError)) ∧
    ∃ c2, remove_student c7Course "George Jetson" = (c2, none) ∧
      c2.students = c7Course.students.erase "George Jetson" :=
  ⟨(C7_remove_student c7Course "Jane Jetson" rfl).1 (by decide),
   (C7_remove_student c7Course "George Jetson" rfl).2 (by decide)⟩

/-! ### C8 -/

/-- C8, confirmed: `make_school_course_collection_id` is deterministic —
any two calls with the same school id return the same derived identifier —
and that identifier is `uuid5` (the SHA-1-based stable hash) of the fixed
namespace `SCHOOL_COURSE_COLLECTION_NS` and the string form of the school
id. -/
theorem C8_collection_id_deterministic (a b : Nat) (hab : a = b) :
    make_school_course_collection_id a = make_school_course_collection_id b ∧
    make_school_course_collection_id a =
      uuid5 SCHOOL_COURSE_COLLECTION_NS (uuidStrBytes a) := by
  subst hab
  exact ⟨rfl, rfl⟩

/-- Witness for C8 at a concrete school id. -/
theorem C8_collection_id_deterministic_witness :
    make_school_course_collection_id 12345 =
      make_school_course_collection_id 12345 ∧
    make_school_course_collection_id 12345 =
      uuid5 SCHOOL_COURSE_COLLECTION_NS (uuidStrBytes 12345) :=
  C8_collection_id_deterministic 12345 12345 rfl

/-! ### C9 -/

/-- C9, confirmed: when the student's `full_name` is not on the course's
roster, `SchoolApplication.withdraw_student_from_course` raises the
not-found error only after the School's `StudentWithdrawn` event has been
applied and saved: the call returns the error, yet the persisted stream has
gained the `StudentWithdrawn` event (the command is not atomic across the
two entities).  The `Course` object itself is unchanged. -/
theorem C9_withdraw_saves_before_error (store : Store) (cRef stu : Nat)
    (fullName : String) (env : Heap) (school : School) (env1 : Heap)
    (hload : foldEvents store env = some (school, env1))
    (hd : school.isDiscarded = false)
    (hcd : (env1 cRef).isDiscarded = false)
    (habs : fullName ∉ (env1 cRef).students) :
    withdraw_student_from_course store cRef stu fullName env =
      ((store ++ [{ originator_id := school.id,
                    originator_version := school.version + 1,
                    kind := .studentWithdrawn cRef stu }], env1 cRef),
       some ESErr.valueError) := by
  unfold withdraw_student_from_course withdraw_student triggerEvent
    remove_student runCourseMutate
  simp only [hload, runMutate, hd, hcd, Bool.false_eq_true, if_false,
    listRemove_of_not_mem _ _ habs, List.nil_append]

/-- The stored stream used in C9's witness: the school was opened and the
student enrolled. -/
def c9Store : Store :=
  [{ originator_id := 1, originator_version := 0, kind := .created "S" },
   { originator_id := 1, originator_version := 1,
     kind := .studentEnrolled 0 7 }]

/-- The school loaded from `c9Store`. -/
def c9School : School :=
  { id := 1, name := some "S", courses := [],
    hist := [{ originator_id := 1, originator_version := 1,
               kind := .studentEnrolled 0 7 }],
    version := 1, isDiscarded := false }

/-- Witness for C9: withdrawing "George Jetson" from a course he was never
enrolled in errors, yet the store has gained the `StudentWithdrawn`
event. -/
theorem C9_withdraw_saves_before_error_witness :
    withdraw_student_from_course c9Store 0 7 "George Jetson" heap0 =
      ((c9Store ++ [{ originator_id := c9School.id,
                      originator_version := c9School.version + 1,
                      kind := .studentWithdrawn 0 7 }], heap0 0),
       some ESErr.valueError) :=
  C9_withdraw_saves_before_error c9Store 0 7 "George Jetson" heap0 c9School
    heap0 rfl rfl rfl (by decide)

/-! ### C10 -/

/-- On a list of plain events, `is_school_created_all` is the conjunction
of `isinstance(_, School.Created)` over the elements. -/
theorem is_school_created_all_map (es : List SchoolEvent) :
    is_school_created_all (es.map PolicyArg.ev) = es.all isCreatedEv := by
  induction es with
  | nil => rfl
  | cons x xs ih =>
      simp only [List.map_cons, is_school_created_all, is_school_created,
        List.all_cons, ih]

/-- On a list of plain events, `is_school_closed_all` is the conjunction of
`isinstance(_, School.Discarded)` over the elements. -/
theorem is_school_closed_all_map (es : List SchoolEvent) :
    is_school_closed_all (es.map PolicyArg.ev) = es.all isDiscardedEv := by
  induction es with
  | nil => rfl
  | cons x xs ih =>
      simp only [List.map_cons, is_school_closed_all, is_school_closed,
        List.all_cons, ih]

/-- C10, confirmed: `is_school_created` (and symmetrically
`is_school_closed`) accepts a single event — returning the `isinstance`
test — or a list of events, where it returns `True` exactly when every
element is a `School.Created` (resp. `School.Discarded`) event; on the
empty list both return `True`. -/
theorem C10_policy_predicates (e : SchoolEvent) (es : List SchoolEvent) :
    is_school_created (.ev e) = isCreatedEv e ∧
    (is_school_created (.evList (es.map .ev)) = true ↔
      ∀ x ∈ es, isCreatedEv x = true) ∧
    is_school_created (.evList []) = true ∧
    is_school_closed (.ev e) = isDiscardedEv e ∧
    (is_school_closed (.evList (es.map .ev)) = true ↔
      ∀ x ∈ es, isDiscardedEv x = true) ∧
    is_school_closed (.evList []) = true := by
  refine ⟨rfl, ?_, rfl, rfl, ?_, rfl⟩
  · rw [is_school_created, is_school_created_all_map]
    exact List.all_eq_true
  · rw [is_school_closed, is_school_closed_all_map]
    exact List.all_eq_true

end ES
